import Mathlib

/-!
Verification of the web-tracker trip-metrics engine: a shallow
embedding of src/App.js and src/utils/mapbox.js together with
theorems about the distance engine, the stop detector, the
speed/mode classifier, the route snapping adapter and the query
range resolver.

Modelling conventions:
* coordinates are rationals, timestamps are integer epoch
  milliseconds (the result of new Date(ts).getTime() on a valid
  timestamp);
* the external haversine library is an external collaborator, so
  its great-circle distance enters every definition as an explicit
  function parameter d; theorems quantify over d and therefore hold
  in particular for the library's haversine distance;
* dynamically-typed JS number slots that may be absent or hold NaN
  are modelled by Option JNum, where JNum is a rational together
  with a NaN point, with NaN-propagating arithmetic.
-/

namespace WebTracker

/-- A valid fix as it reaches the analytic components of App.js:
the upstream filter in fetchData guarantees numeric, non-NaN
latitude and longitude, the timestamp is epoch milliseconds, and
the remaining fields are the row metadata. -/
structure Fix where
  latitude : ℚ
  longitude : ℚ
  timestamp : Int
  tracking_id : Option String
  address : Option String
  deriving DecidableEq

/-- src/App.js isStop(current, previous): qualifies as a stop when
the haversine distance in meters is at most 50 and the elapsed time
in minutes (milliseconds / 60000) is at least 5.  The parameter d
is the external library's great-circle distance in meters between
the two fixes. -/
def isStop (d : Fix → Fix → ℚ) (current previous : Fix) : Bool :=
  let distanceM := d current previous
  let timeDiff := ((current.timestamp : ℚ) - (previous.timestamp : ℚ)) / 60000
  decide (distanceM ≤ 50) && decide (5 ≤ timeDiff)

/-- src/App.js calculateSpeed(from, to): great-circle distance in
kilometers divided by elapsed hours; the JS guard
(!timeDiff || timeDiff <= 0) returns 0 when the elapsed time is
zero or negative.  The parameter d is the external library's
great-circle distance in kilometers. -/
def calculateSpeed (d : Fix → Fix → ℚ) (fromFix toFix : Fix) : ℚ :=
  let distanceKm := d fromFix toFix
  let timeDiff := ((toFix.timestamp : ℚ) - (fromFix.timestamp : ℚ)) / 3600000
  if timeDiff = 0 ∨ timeDiff ≤ 0 then 0 else distanceKm / timeDiff

/-- The per-marker travel-mode classification in App.js:
speed < 5 km/h renders the label Walking, otherwise Vehicle. -/
def speedLabel (d : Fix → Fix → ℚ) (previous current : Fix) : String :=
  if calculateSpeed d previous current < 5 then "Walking" else "Vehicle"

/-- A JS number value: either NaN or an actual (rational) value. -/
inductive JNum where
  | nan : JNum
  | val : ℚ → JNum
  deriving DecidableEq

/-- JS addition on numbers: NaN propagates through +. -/
def jadd : JNum → JNum → JNum
  | JNum.val a, JNum.val b => JNum.val (a + b)
  | _, _ => JNum.nan

/-- The external haversine library applied to JS number inputs:
on actual values it is the great-circle distance d of the two
coordinate pairs, and any NaN input makes the result NaN
(Math trig on NaN is NaN).  d takes lat1 lon1 lat2 lon2. -/
def havJ (d : ℚ → ℚ → ℚ → ℚ → ℚ) : JNum → JNum → JNum → JNum → JNum
  | JNum.val la, JNum.val lo, JNum.val lb, JNum.val lg => JNum.val (d la lo lb lg)
  | _, _, _, _ => JNum.nan

/-- A raw coordinate record as calculateTotalDistance sees it: the
latitude/longitude slots are dynamically typed, so each is either a
JS number (possibly NaN) or absent/non-number (none). -/
structure CoordPt where
  latitude : Option JNum
  longitude : Option JNum
  deriving DecidableEq

/-- One iteration of the calculateTotalDistance loop body from
src/App.js: the pair is skipped (accumulator unchanged) when either
element is null or any of the four coordinate slots fails the
typeof number test; otherwise the haversine distance of the pair is
added. -/
def pairStep (d : ℚ → ℚ → ℚ → ℚ → ℚ) (dist : JNum) :
    Option CoordPt → Option CoordPt → JNum
  | some a, some b =>
    match a.latitude, a.longitude, b.latitude, b.longitude with
    | some la, some lo, some lb, some lg => jadd dist (havJ d la lo lb lg)
    | _, _, _, _ => dist
  | _, _ => dist

/-- JS Number.prototype.toFixed(2) on "cents": renders a
nonnegative integer amount of hundredths as a 2-decimal string. -/
def fmtCents (m : Nat) : String :=
  let frac := m % 100
  toString (m / 100) ++ "." ++
    (if frac < 10 then "0" ++ toString frac else toString frac)

/-- Floor of a rational as an integer (the denominator of a Rat is
positive, so flooring divides the numerator by the denominator). -/
def ratFloor (q : ℚ) : Int := Int.fdiv q.num (q.den : Int)

/-- JS Number.prototype.toFixed(2): NaN renders as "NaN"; a value q
renders the integer n closest to 100 * q (larger n on ties, per the
toFixed specification, i.e. the floor of 100 * q + 1/2), with two
decimal digits. -/
def toFixed2 : JNum → String
  | JNum.nan => "NaN"
  | JNum.val q =>
    let n : Int := ratFloor (q * 100 + 1 / 2)
    if n < 0 then "-" ++ fmtCents (-n).toNat else fmtCents n.toNat

/-- src/App.js calculateTotalDistance: "0.00" for fewer than two
points, otherwise the indexed loop over i from 0 to length - 2
accumulating the haversine distance of each consecutive pair,
formatted by toFixed(2). -/
def calculateTotalDistance (d : ℚ → ℚ → ℚ → ℚ → ℚ)
    (coords : List (Option CoordPt)) : String :=
  if coords.length < 2 then "0.00"
  else
    toFixed2 ((List.range (coords.length - 1)).foldl
      (fun dist i =>
        pairStep d dist ((coords[i]?).getD none) ((coords[i + 1]?).getD none))
      (JNum.val 0))

/-- The spec's description of the distance sum: fold the
NaN-aware haversine contribution over the consecutive pairs
(zip with tail), skipping pairs that fail the numeric-presence
check. -/
def pairSum (d : ℚ → ℚ → ℚ → ℚ → ℚ) (coords : List (Option CoordPt)) : JNum :=
  (coords.zip coords.tail).foldl
    (fun dist ab => pairStep d dist ab.1 ab.2) (JNum.val 0)

/-- Concrete input refuting the unrestricted NaN claim: the first
point has a NaN latitude (present and numeric), but the second
point lacks a numeric latitude, so the only pair is skipped by the
typeof guard. -/
def cexCoords10 : List (Option CoordPt) :=
  [some ⟨some JNum.nan, some (JNum.val 0)⟩,
   some ⟨none, some (JNum.val 0)⟩]

/-- The stop-detection loop in fetchData (src/App.js): for i from 1
to length - 1, push validCoords[i] when
isStop(validCoords[i], validCoords[i-1]) holds. -/
def detectStops (d : Fix → Fix → ℚ) (fixes : List Fix) : List Fix :=
  (List.range' 1 (fixes.length - 1)).foldl
    (fun acc i =>
      match fixes[i]?, fixes[i - 1]? with
      | some cur, some prev => if isStop d cur prev then acc ++ [cur] else acc
      | _, _ => acc) []

/-- The spec's scan of the stop detector: walk the fixes keeping
the previous fix, and emit the current (later) fix of every
qualifying pair. -/
def stopsGo (d : Fix → Fix → ℚ) : Fix → List Fix → List Fix
  | _, [] => []
  | prev, cur :: rest =>
    if isStop d cur prev then cur :: stopsGo d cur rest
    else stopsGo d cur rest

/-- The spec's characterization of detectStops: filter the
consecutive pairs (fixes[i-1], fixes[i]) by the stop predicate and
keep the later fix of each qualifying pair. -/
def stopsSpec (d : Fix → Fix → ℚ) (fixes : List Fix) : List Fix :=
  ((fixes.zip fixes.tail).filter (fun pc => isStop d pc.2 pc.1)).map Prod.snd

/-- A point as returned by snapToRoad (src/utils/mapbox.js).  On
the success path the JS object carries latitude/longitude only, so
the metadata slots are none; on the fallback paths the function
returns the original fix objects, whose metadata fields are still
present. -/
structure SnapPoint where
  latitude : ℚ
  longitude : ℚ
  timestamp : Option Int
  tracking_id : Option String
  address : Option String
  deriving DecidableEq

/-- A Fix viewed as a returned point object: the JS fallback paths
return the fix objects themselves, so every field carries over. -/
def fixToSnapPoint (f : Fix) : SnapPoint :=
  ⟨f.latitude, f.longitude, some f.timestamp, f.tracking_id, f.address⟩

/-- A matching's geometry in the map-matching response: a
coordinates list in (longitude, latitude) order; the slot may be
absent. -/
structure Geometry where
  coordinates : Option (List (ℚ × ℚ))
  deriving DecidableEq

/-- One matched segment of the map-matching response. -/
structure Matching where
  geometry : Option Geometry
  deriving DecidableEq

/-- The body of a successful (2xx) map-matching response; the
matchings slot may be absent. -/
structure MatchData where
  matchings : Option (List Matching)
  deriving DecidableEq

/-- The JS forEach concatenation in snapToRoad: fold over the
matchings, appending each present geometry coordinates list. -/
def concatCoords (matchings : List Matching) : List (ℚ × ℚ) :=
  matchings.foldl
    (fun acc matching =>
      match matching.geometry with
      | some g =>
        match g.coordinates with
        | some cs => acc ++ cs
        | none => acc
      | none => acc) []

/-- JS Array.prototype.filter with an index-aware predicate: keeps
the elements (from the given start index) where the predicate
holds. -/
def jsFilterAux {α : Type} (pred : α → Nat → Bool) : List α → Nat → List α
  | [], _ => []
  | a :: t, i =>
    if pred a i then a :: jsFilterAux pred t (i + 1)
    else jsFilterAux pred t (i + 1)

/-- The snapToRoad deduplication filter: keep a coordinate when it
is at index 0 or differs from the element at the previous index of
the filtered array in either component (exact inequality). -/
def dedupJs (self : List (ℚ × ℚ)) : List (ℚ × ℚ) :=
  jsFilterAux
    (fun coord index =>
      decide (index = 0) ||
        match self[index - 1]? with
        | some prevc =>
          decide (coord.1 ≠ prevc.1) || decide (coord.2 ≠ prevc.2)
        | none => true)
    self 0

/-- src/utils/mapbox.js snapToRoad.  The axios call is modelled by
the resp argument: Except.error covers a transport failure or a
non-2xx response (axios rejects, landing in the catch block), and
Except.ok carries the parsed body.  The Bool of the result records
whether the network branch was reached.  Fewer than 2 coords
returns the input unchanged with no network call; a missing or
empty matchings list or an error falls back to the original
coords; otherwise the geometry coordinate lists are concatenated in
order, consecutive duplicates removed, and each (lng, lat) pair
repackaged as a latitude/longitude point. -/
def snapToRoad (resp : Except Unit MatchData) (coords : List Fix) :
    List SnapPoint × Bool :=
  if coords.length < 2 then (coords.map fixToSnapPoint, false)
  else
    match resp with
    | Except.error _ => (coords.map fixToSnapPoint, true)
    | Except.ok data =>
      match data.matchings with
      | none => (coords.map fixToSnapPoint, true)
      | some matchings =>
        if matchings.length = 0 then (coords.map fixToSnapPoint, true)
        else
          ((dedupJs (concatCoords matchings)).map
            (fun p => (⟨p.2, p.1, none, none, none⟩ : SnapPoint)), true)

/-- Modelled after the spec's wording for the adapter: the
segments' coordinate lists concatenated in the order returned
(missing geometry contributing nothing). -/
def segsFlatten (matchings : List Matching) : List (ℚ × ℚ) :=
  (matchings.map (fun m => (m.geometry.bind Geometry.coordinates).getD [])).flatten

/-- Modelled after the spec's wording for deduplication: walk the
list and drop an element exactly when it equals its immediate
predecessor in the input. -/
def collapseGo (prev : ℚ × ℚ) : List (ℚ × ℚ) → List (ℚ × ℚ)
  | [] => []
  | b :: rest =>
    if b = prev then collapseGo b rest else b :: collapseGo b rest

/-- Collapse immediately-adjacent duplicate coordinate pairs,
preserving non-adjacent duplicates. -/
def collapseAdjacent : List (ℚ × ℚ) → List (ℚ × ℚ)
  | [] => []
  | a :: rest => a :: collapseGo a rest

/-- A JS Date value in local civil time: calendar date plus
time-of-day fields.  Months are the civil numbers 1..12; the
source only reads getDate() and mutates via setDate/setHours, so
the 0-based getMonth convention never surfaces. -/
structure JSDate where
  year : Int
  month : Int
  day : Int
  hours : Int
  minutes : Int
  seconds : Int
  msec : Int
  deriving DecidableEq

/-- The day-count base of a civil month (Hinnant's days_from_civil
with the day-of-month term split off), modelling the JS runtime's
internal calendar arithmetic. -/
def monthBase (y m : Int) : Int :=
  let y2 := if m ≤ 2 then y - 1 else y
  let era := (if 0 ≤ y2 then y2 else y2 - 399) / 400
  let yoe := y2 - era * 400
  let mp := (m + 9) % 12
  let doe := yoe * 365 + yoe / 4 - yoe / 100 + (153 * mp + 2) / 5 - 1
  era * 146097 + doe - 719468

/-- Days since 1970-01-01 of a civil date (the day-of-month enters
linearly on top of the month base). -/
def daysFromCivil (y m d : Int) : Int := monthBase y m + d

/-- Civil date (year, month, day) from a day count since
1970-01-01 (Hinnant's civil_from_days), modelling the JS runtime's
date normalization. -/
def civilFromDays (z0 : Int) : Int × Int × Int :=
  let z := z0 + 719468
  let era := (if 0 ≤ z then z else z - 146096) / 146097
  let doe := z - era * 146097
  let yoe := (doe - doe / 1460 + doe / 36524 - doe / 146096) / 365
  let y := yoe + era * 400
  let doy := doe - (365 * yoe + yoe / 4 - yoe / 100)
  let mp := (5 * doy + 2) / 153
  let d := doy - (153 * mp + 2) / 5 + 1
  let m := mp + (if mp < 10 then 3 else -9)
  (if m ≤ 2 then y + 1 else y, m, d)

/-- JS Date.prototype.setDate(n): keep the year/month context,
replace the day-of-month by n and normalize (n = 0 rolls into the
previous month, etc.), leaving the time of day untouched. -/
def setDateJS (dt : JSDate) (n : Int) : JSDate :=
  let c := civilFromDays (daysFromCivil dt.year dt.month 1 + (n - 1))
  { dt with year := c.1, month := c.2.1, day := c.2.2 }

/-- JS Date.prototype.setHours(h, m, s, ms) for in-range arguments,
which is how App.js always calls it (0,0,0,0 and 23,59,59,999). -/
def setHours (dt : JSDate) (h mi s ms : Int) : JSDate :=
  { dt with hours := h, minutes := mi, seconds := s, msec := ms }

/-- src/App.js getDateRange(option): start and end both begin as
the current instant (new Date()); "today" pins them to the local
day boundaries, "yesterday" first shifts the day-of-month back by
one (via setDate(now.getDate() - 1)) and then pins the boundaries;
any other option returns the instants unchanged. -/
def getDateRange (now : JSDate) (option : String) : JSDate × JSDate :=
  if option = "today" then
    (setHours now 0 0 0 0, setHours now 23 59 59 999)
  else if option = "yesterday" then
    (setHours (setDateJS now (now.day - 1)) 0 0 0 0,
     setHours (setDateJS now (now.day - 1)) 23 59 59 999)
  else (now, now)

/-- Linearization of a JSDate to epoch milliseconds, for comparing
instants. -/
def toMs (dt : JSDate) : Int :=
  daysFromCivil dt.year dt.month dt.day * 86400000 + dt.hours * 3600000 +
    dt.minutes * 60000 + dt.seconds * 1000 + dt.msec

/-- Modelled after the spec's wording: the range from local
midnight to local 23:59:59.999 of the calendar day of the given
instant. -/
def specLocalDayRange (dt : JSDate) : JSDate × JSDate :=
  (⟨dt.year, dt.month, dt.day, 0, 0, 0, 0⟩,
   ⟨dt.year, dt.month, dt.day, 23, 59, 59, 999⟩)

/-- Modelled after the spec's wording: the same instant shifted
back exactly one calendar day (day count minus one). -/
def prevCalendarDay (dt : JSDate) : JSDate :=
  let c := civilFromDays (daysFromCivil dt.year dt.month dt.day - 1)
  { dt with year := c.1, month := c.2.1, day := c.2.2 }

end WebTracker

namespace WebTracker

/-! Helper lemmas on list indexing used by the loop refinements. -/

theorem getElem?_add_drop {α : Type} (l : List α) :
    ∀ (n j : Nat), l[n + j]? = (l.drop n)[j]? := by
  induction l with
  | nil => intro n j; simp
  | cons a l ih =>
    intro n j
    cases n with
    | zero => simp
    | succ n =>
      rw [List.drop_succ_cons]
      rw [show n + 1 + j = (n + j) + 1 by omega]
      rw [List.getElem?_cons_succ]
      exact ih n j

theorem drop_succ_tail {α : Type} (l : List α) :
    ∀ (n : Nat), l.drop (n + 1) = (l.drop n).tail := by
  induction l with
  | nil => intro n; simp
  | cons a l ih =>
    intro n
    cases n with
    | zero => simp
    | succ n =>
      rw [List.drop_succ_cons, List.drop_succ_cons]
      exact ih n

theorem tail_getElem? {α : Type} (l : List α) (i : Nat) :
    l.tail[i]? = l[i + 1]? := by
  cases l <;> simp

theorem zip_getElem?_of {α β : Type} :
    ∀ (l₁ : List α) (l₂ : List β) (i : Nat) (x : α) (y : β),
      l₁[i]? = some x → l₂[i]? = some y → (l₁.zip l₂)[i]? = some (x, y) := by
  intro l₁
  induction l₁ with
  | nil => intro l₂ i x y h; simp at h
  | cons a l₁ ih =>
    intro l₂ i x y h₁ h₂
    cases l₂ with
    | nil => simp at h₂
    | cons b l₂ =>
      cases i with
      | zero =>
        simp at h₁ h₂
        simp [List.zip_cons_cons, h₁, h₂]
      | succ i =>
        simp only [List.getElem?_cons_succ] at h₁ h₂
        simp only [List.zip_cons_cons, List.getElem?_cons_succ]
        exact ih l₂ i x y h₁ h₂

/-! The indexed distance loop equals the fold over consecutive pairs. -/

theorem calcLoop_eq_pairs (d : ℚ → ℚ → ℚ → ℚ → ℚ) (coords : List (Option CoordPt)) :
    ∀ (t : List (Option CoordPt)) (n : Nat) (acc : JNum), coords.drop n = t →
      (List.range' n (t.length - 1)).foldl
        (fun dist i =>
          pairStep d dist ((coords[i]?).getD none) ((coords[i + 1]?).getD none)) acc
      = (t.zip t.tail).foldl (fun dist ab => pairStep d dist ab.1 ab.2) acc := by
  intro t
  induction t with
  | nil => intro n acc h; simp
  | cons a rest ih =>
    intro n acc h
    cases rest with
    | nil => simp
    | cons b t' =>
      have h0 : coords[n]? = some a := by
        have hh := getElem?_add_drop coords n 0
        rw [Nat.add_zero] at hh
        rw [hh, h]; rfl
      have h1 : coords[n + 1]? = some b := by
        have hh := getElem?_add_drop coords n 1
        rw [hh, h]; simp
      have h2 : coords.drop (n + 1) = b :: t' := by
        rw [drop_succ_tail, h]; rfl
      have hlen : (a :: b :: t').length - 1 = t'.length + 1 := by simp
      rw [hlen, List.range'_succ, List.foldl_cons, h0, h1]
      simp only [Option.getD_some]
      have := ih (n + 1) (pairStep d acc a b) h2
      simp only [List.length_cons, Nat.add_sub_cancel] at this
      rw [this]
      rfl

theorem calcTotal_eq_pairSum (d : ℚ → ℚ → ℚ → ℚ → ℚ)
    (coords : List (Option CoordPt)) (h : 2 ≤ coords.length) :
    calculateTotalDistance d coords = toFixed2 (pairSum d coords) := by
  unfold calculateTotalDistance
  rw [if_neg (by omega)]
  unfold pairSum
  rw [List.range_eq_range']
  exact congrArg toFixed2 (calcLoop_eq_pairs d coords coords 0 (JNum.val 0) rfl)

/-! NaN absorption through the distance loop. -/

theorem jadd_nan_left (y : JNum) : jadd JNum.nan y = JNum.nan := by
  cases y <;> rfl

theorem jadd_nan_right (x : JNum) : jadd x JNum.nan = JNum.nan := by
  cases x <;> rfl

theorem havJ_nan_of (d : ℚ → ℚ → ℚ → ℚ → ℚ) (w x y z : JNum)
    (h : w = JNum.nan ∨ x = JNum.nan ∨ y = JNum.nan ∨ z = JNum.nan) :
    havJ d w x y z = JNum.nan := by
  rcases h with h | h | h | h <;> subst h
  · cases x <;> cases y <;> cases z <;> rfl
  · cases w <;> cases y <;> cases z <;> rfl
  · cases w <;> cases x <;> cases z <;> rfl
  · cases w <;> cases x <;> cases y <;> rfl

theorem pairStep_nan_acc (d : ℚ → ℚ → ℚ → ℚ → ℚ) (x y : Option CoordPt) :
    pairStep d JNum.nan x y = JNum.nan := by
  cases x with
  | none => cases y <;> rfl
  | some a =>
    cases y with
    | none => rfl
    | some b =>
      obtain ⟨alat, alon⟩ := a
      obtain ⟨blat, blon⟩ := b
      cases alat <;> cases alon <;> cases blat <;> cases blon <;>
        simp [pairStep, jadd_nan_left]

theorem foldl_pairStep_nan (d : ℚ → ℚ → ℚ → ℚ → ℚ) :
    ∀ (z : List (Option CoordPt × Option CoordPt)),
      z.foldl (fun dist ab => pairStep d dist ab.1 ab.2) JNum.nan = JNum.nan := by
  intro z
  induction z with
  | nil => rfl
  | cons p z ih => rw [List.foldl_cons, pairStep_nan_acc]; exact ih

theorem foldl_pairStep_nan_at (d : ℚ → ℚ → ℚ → ℚ → ℚ) :
    ∀ (z : List (Option CoordPt × Option CoordPt)) (i : Nat) (acc : JNum)
      (pa pb : Option CoordPt),
      z[i]? = some (pa, pb) →
      (∀ acc', pairStep d acc' pa pb = JNum.nan) →
      z.foldl (fun dist ab => pairStep d dist ab.1 ab.2) acc = JNum.nan := by
  intro z
  induction z with
  | nil => intro i acc pa pb h _; simp at h
  | cons p z ih =>
    intro i acc pa pb h hstep
    cases i with
    | zero =>
      simp at h
      rw [List.foldl_cons]
      have hp : p = (pa, pb) := by
        cases p; simp at h; simp [h.1, h.2]
      subst hp
      rw [show pairStep d acc (pa, pb).1 (pa, pb).2 = JNum.nan from hstep acc]
      exact foldl_pairStep_nan d z
    | succ j =>
      simp only [List.getElem?_cons_succ] at h
      rw [List.foldl_cons]
      exact ih j _ pa pb h hstep

theorem pairStep_nan_pair (d : ℚ → ℚ → ℚ → ℚ → ℚ) (a b : CoordPt)
    (ha1 : a.latitude.isSome) (ha2 : a.longitude.isSome)
    (hb1 : b.latitude.isSome) (hb2 : b.longitude.isSome)
    (hnan : a.latitude = some JNum.nan ∨ a.longitude = some JNum.nan ∨
      b.latitude = some JNum.nan ∨ b.longitude = some JNum.nan) :
    ∀ acc, pairStep d acc (some a) (some b) = JNum.nan := by
  intro acc
  obtain ⟨alat, alon⟩ := a
  obtain ⟨blat, blon⟩ := b
  simp only at ha1 ha2 hb1 hb2 hnan
  obtain ⟨la, h1⟩ := Option.isSome_iff_exists.mp ha1
  obtain ⟨lo, h2⟩ := Option.isSome_iff_exists.mp ha2
  obtain ⟨lb, h3⟩ := Option.isSome_iff_exists.mp hb1
  obtain ⟨lg, h4⟩ := Option.isSome_iff_exists.mp hb2
  subst h1 h2 h3 h4
  have hnan' : la = JNum.nan ∨ lo = JNum.nan ∨ lb = JNum.nan ∨ lg = JNum.nan := by
    rcases hnan with h | h | h | h
    · left; exact (Option.some_injective _ h)
    · right; left; exact (Option.some_injective _ h)
    · right; right; left; exact (Option.some_injective _ h)
    · right; right; right; exact (Option.some_injective _ h)
  simp [pairStep, havJ_nan_of d la lo lb lg hnan', jadd_nan_right]

theorem zip_getElem?_inv {α β : Type} :
    ∀ (l₁ : List α) (l₂ : List β) (j : Nat) (p : α × β),
      (l₁.zip l₂)[j]? = some p → l₁[j]? = some p.1 ∧ l₂[j]? = some p.2 := by
  intro l₁
  induction l₁ with
  | nil => intro l₂ j p h; simp at h
  | cons a l₁ ih =>
    intro l₂ j p h
    cases l₂ with
    | nil => simp at h
    | cons b l₂ =>
      cases j with
      | zero =>
        simp only [List.zip_cons_cons, List.getElem?_cons_zero,
          Option.some.injEq] at h
        subst h
        simp
      | succ j =>
        simp only [List.zip_cons_cons, List.getElem?_cons_succ] at h ⊢
        exact ih l₂ j p h

/-! The indexed stop-detection loop equals the consecutive-pair scan. -/

theorem stopLoop_eq (d : Fix → Fix → ℚ) (fixes : List Fix) :
    ∀ (t : List Fix) (n : Nat) (prev : Fix) (acc : List Fix),
      fixes[n - 1]? = some prev → fixes.drop n = t →
      (List.range' n t.length).foldl
        (fun acc i =>
          match fixes[i]?, fixes[i - 1]? with
          | some cur, some prev => if isStop d cur prev then acc ++ [cur] else acc
          | _, _ => acc) acc
      = acc ++ stopsGo d prev t := by
  intro t
  induction t with
  | nil => intro n prev acc hp h; simp [stopsGo]
  | cons cur rest ih =>
    intro n prev acc hp h
    have h0 : fixes[n]? = some cur := by
      have hh := getElem?_add_drop fixes n 0
      rw [Nat.add_zero] at hh
      rw [hh, h]; simp
    have h2 : fixes.drop (n + 1) = rest := by
      rw [drop_succ_tail, h]; rfl
    have hn1 : fixes[(n + 1) - 1]? = some cur := by
      rw [Nat.add_sub_cancel]; exact h0
    rw [List.length_cons, List.range'_succ, List.foldl_cons]
    simp only [h0, hp]
    have hrhs : stopsGo d prev (cur :: rest) =
        if isStop d cur prev then cur :: stopsGo d cur rest
        else stopsGo d cur rest := rfl
    rw [hrhs]
    cases hs : isStop d cur prev with
    | true =>
      have ht : (true = true) := rfl
      rw [if_pos ht, if_pos ht, ih (n + 1) cur (acc ++ [cur]) hn1 h2]
      simp
    | false =>
      have hf : ¬(false = true) := by simp
      rw [if_neg hf, if_neg hf, ih (n + 1) cur acc hn1 h2]

theorem stopsGo_eq_zip (d : Fix → Fix → ℚ) :
    ∀ (t : List Fix) (prev : Fix),
      stopsGo d prev t
        = (((prev :: t).zip t).filter (fun pc => isStop d pc.2 pc.1)).map
            Prod.snd := by
  intro t
  induction t with
  | nil => intro prev; rfl
  | cons cur rest ih =>
    intro prev
    rw [List.zip_cons_cons]
    have hgo : stopsGo d prev (cur :: rest) =
        if isStop d cur prev then cur :: stopsGo d cur rest
        else stopsGo d cur rest := rfl
    rw [hgo, List.filter_cons]
    cases hs : isStop d cur prev with
    | true => simp [hs, ih cur]
    | false => simp [hs, ih cur]

theorem detectStops_eq_stopsSpec (d : Fix → Fix → ℚ) (fixes : List Fix) :
    detectStops d fixes = stopsSpec d fixes := by
  cases fixes with
  | nil => rfl
  | cons f rest =>
    unfold detectStops stopsSpec
    have hlen : (f :: rest).length - 1 = rest.length := by simp
    rw [hlen]
    have hp : (f :: rest)[1 - 1]? = some f := by simp
    have hd : (f :: rest).drop 1 = rest := rfl
    rw [stopLoop_eq d (f :: rest) rest 1 f [] hp hd, List.nil_append,
      stopsGo_eq_zip d rest f]
    rfl

/-! The adapter's forEach concatenation equals the in-order
flattening of the segments. -/

theorem concatCoords_go :
    ∀ (matchings : List Matching) (init : List (ℚ × ℚ)),
      matchings.foldl
        (fun acc matching =>
          match matching.geometry with
          | some g =>
            match g.coordinates with
            | some cs => acc ++ cs
            | none => acc
          | none => acc) init
      = init ++ segsFlatten matchings := by
  intro matchings
  induction matchings with
  | nil => intro init; simp [segsFlatten]
  | cons m ms ih =>
    intro init
    rw [List.foldl_cons]
    have hstep : (match m.geometry with
        | some g =>
          match g.coordinates with
          | some cs => init ++ cs
          | none => init
        | none => init)
        = init ++ (m.geometry.bind Geometry.coordinates).getD [] := by
      cases hg : m.geometry with
      | none => simp
      | some g =>
        cases hc : g.coordinates with
        | none => simp [Option.bind, hc]
        | some cs => simp [Option.bind, hc]
    rw [hstep, ih]
    unfold segsFlatten
    simp [List.flatten]

theorem concatCoords_eq_segsFlatten (matchings : List Matching) :
    concatCoords matchings = segsFlatten matchings := by
  unfold concatCoords
  rw [concatCoords_go matchings []]
  rfl

/-! The index-aware dedup filter equals the adjacent-duplicate
collapse. -/

theorem jsFilterGo (self : List (ℚ × ℚ)) :
    ∀ (t : List (ℚ × ℚ)) (n : Nat) (prev : ℚ × ℚ),
      1 ≤ n → self[n - 1]? = some prev → self.drop n = t →
      jsFilterAux
        (fun coord index =>
          decide (index = 0) ||
            match self[index - 1]? with
            | some prevc =>
              decide (coord.1 ≠ prevc.1) || decide (coord.2 ≠ prevc.2)
            | none => true)
        t n
      = collapseGo prev t := by
  intro t
  induction t with
  | nil => intro n prev hn hp h; rfl
  | cons b t' ih =>
    intro n prev hn hp h
    have h0 : self[n]? = some b := by
      have hh := getElem?_add_drop self n 0
      rw [Nat.add_zero] at hh
      rw [hh, h]; simp
    have h2 : self.drop (n + 1) = t' := by
      rw [drop_succ_tail, h]; rfl
    have hn1 : self[(n + 1) - 1]? = some b := by
      rw [Nat.add_sub_cancel]; exact h0
    unfold jsFilterAux
    have hne : ¬(n = 0) := by omega
    simp only [hp, decide_eq_true_eq, hne, decide_False, Bool.false_or]
    have hgo : collapseGo prev (b :: t') =
        if b = prev then collapseGo b t' else b :: collapseGo b t' := rfl
    rw [hgo]
    by_cases hbp : b = prev
    · have hc1 : decide (b.1 ≠ prev.1) = false := by simp [hbp]
      have hc2 : decide (b.2 ≠ prev.2) = false := by simp [hbp]
      rw [hc1, hc2]
      simp only [Bool.or_self, Bool.false_eq_true, if_false, if_pos hbp]
      exact ih (n + 1) b (by omega) hn1 h2
    · have hcond : (decide (b.1 ≠ prev.1) || decide (b.2 ≠ prev.2)) = true := by
        have : b.1 ≠ prev.1 ∨ b.2 ≠ prev.2 := by
          by_contra hcon
          push_neg at hcon
          exact hbp (Prod.ext hcon.1 hcon.2)
        rcases this with hcc | hcc <;> simp [hcc]
      rw [hcond]
      simp only [if_true, if_neg hbp]
      rw [ih (n + 1) b (by omega) hn1 h2]

theorem dedupJs_eq_collapseAdjacent (self : List (ℚ × ℚ)) :
    dedupJs self = collapseAdjacent self := by
  cases hself : self with
  | nil => rfl
  | cons a t =>
    unfold dedupJs jsFilterAux
    simp only [decide_True, Bool.true_or, if_true]
    have hp : self[1 - 1]? = some a := by rw [hself]; simp
    have hd : self.drop 1 = t := by rw [hself]; rfl
    rw [← hself]
    rw [jsFilterGo self t 1 a (by omega) hp hd]
    rw [hself]
    rfl

end WebTracker

namespace WebTracker

/-!  Claim theorems on the stop detector thresholds and the
degenerate-time speed classification. -/

/-- C2: a consecutive pair qualifies as a stop iff the great-circle
distance between the fixes is at most 50 meters and the elapsed time
is at least 5 minutes (300000 ms); both boundaries are inclusive, so
exactly 50 m together with exactly 5 minutes qualifies, 51 m never
qualifies regardless of duration, and 4 minutes never qualifies for
any distance at most 50 m. -/
theorem C2_stop_iff_within_50m_and_5min :
    (∀ (d : Fix → Fix → ℚ) (current previous : Fix),
      isStop d current previous = true ↔
        (d current previous ≤ 50 ∧
          300000 ≤ current.timestamp - previous.timestamp)) ∧
    (∀ (d : Fix → Fix → ℚ) (current previous : Fix),
      d current previous = 50 →
      current.timestamp - previous.timestamp = 300000 →
        isStop d current previous = true) ∧
    (∀ (d : Fix → Fix → ℚ) (current previous : Fix),
      d current previous = 51 → isStop d current previous = false) ∧
    (∀ (d : Fix → Fix → ℚ) (current previous : Fix),
      d current previous ≤ 50 →
      current.timestamp - previous.timestamp = 240000 →
        isStop d current previous = false) := by
  have key : ∀ (d : Fix → Fix → ℚ) (current previous : Fix),
      isStop d current previous = true ↔
        (d current previous ≤ 50 ∧
          300000 ≤ current.timestamp - previous.timestamp) := by
    intro d current previous
    unfold isStop
    simp only [Bool.and_eq_true, decide_eq_true_eq]
    constructor
    · rintro ⟨h1, h2⟩
      refine ⟨h1, ?_⟩
      have h60 : (0 : ℚ) < 60000 := by norm_num
      rw [le_div_iff₀ h60] at h2
      have : (300000 : ℚ) ≤ (current.timestamp : ℚ) - (previous.timestamp : ℚ) := by
        linarith
      rw [show ((current.timestamp : ℚ) - (previous.timestamp : ℚ)) =
          ((current.timestamp - previous.timestamp : Int) : ℚ) by push_cast; ring] at this
      exact_mod_cast this
    · rintro ⟨h1, h2⟩
      refine ⟨h1, ?_⟩
      have h2' : (300000 : ℚ) ≤ ((current.timestamp - previous.timestamp : Int) : ℚ) := by
        exact_mod_cast h2
      have h60 : (0 : ℚ) < 60000 := by norm_num
      rw [le_div_iff₀ h60]
      have : ((current.timestamp - previous.timestamp : Int) : ℚ) =
          (current.timestamp : ℚ) - (previous.timestamp : ℚ) := by push_cast; ring
      linarith [this ▸ h2']
  refine ⟨key, ?_, ?_, ?_⟩
  · intro d current previous hd ht
    exact (key d current previous).2 ⟨le_of_eq hd, le_of_eq ht.symm⟩
  · intro d current previous hd
    rw [← Bool.not_eq_true]
    intro h
    have := ((key d current previous).1 h).1
    rw [hd] at this
    norm_num at this
  · intro d current previous hd ht
    rw [← Bool.not_eq_true]
    intro h
    have := ((key d current previous).1 h).2
    rw [ht] at this
    norm_num at this

/-- Witness for C2 at concrete inputs: exactly 50 m / 5 min
qualifies, 51 m does not, 4 min does not. -/
theorem C2_stop_iff_within_50m_and_5min_witness :
    isStop (fun _ _ => (50 : ℚ))
      ⟨0, 0, 300000, none, none⟩ ⟨0, 0, 0, none, none⟩ = true ∧
    isStop (fun _ _ => (51 : ℚ))
      ⟨0, 0, 300000, none, none⟩ ⟨0, 0, 0, none, none⟩ = false ∧
    isStop (fun _ _ => (10 : ℚ))
      ⟨0, 0, 240000, none, none⟩ ⟨0, 0, 0, none, none⟩ = false := by
  refine ⟨?_, ?_, ?_⟩
  · exact C2_stop_iff_within_50m_and_5min.2.1 _ _ _ rfl (by decide)
  · exact C2_stop_iff_within_50m_and_5min.2.2.1 _ _ _ rfl
  · exact C2_stop_iff_within_50m_and_5min.2.2.2 _ _ _ (by norm_num) (by decide)

/-- C5: whenever the elapsed time between the two fixes is zero or
negative, calculateSpeed is 0 (not an error, not infinity), and the
classification is Walking regardless of the distance. -/
theorem C5_degenerate_time_speed_zero_walking :
    ∀ (d : Fix → Fix → ℚ) (fromFix toFix : Fix),
      toFix.timestamp - fromFix.timestamp ≤ 0 →
        calculateSpeed d fromFix toFix = 0 ∧
        speedLabel d fromFix toFix = "Walking" := by
  intro d fromFix toFix h
  have hq : ((toFix.timestamp : ℚ) - (fromFix.timestamp : ℚ)) / 3600000 ≤ 0 := by
    have : ((toFix.timestamp - fromFix.timestamp : Int) : ℚ) ≤ 0 := by exact_mod_cast h
    have h' : (toFix.timestamp : ℚ) - (fromFix.timestamp : ℚ) ≤ 0 := by
      push_cast at this; linarith
    have h36 : (0 : ℚ) < 3600000 := by norm_num
    exact div_nonpos_of_nonpos_of_nonneg h' (le_of_lt h36)
  have hspeed : calculateSpeed d fromFix toFix = 0 := by
    unfold calculateSpeed
    simp only
    rw [if_pos (Or.inr hq)]
  refine ⟨hspeed, ?_⟩
  unfold speedLabel
  rw [hspeed]
  norm_num

/-- Witness for C5: duplicate timestamps with a large distance still
classify as Walking with speed 0. -/
theorem C5_degenerate_time_speed_zero_walking_witness :
    calculateSpeed (fun _ _ => (1000 : ℚ))
      ⟨0, 0, 500, none, none⟩ ⟨3, 3, 500, none, none⟩ = 0 ∧
    speedLabel (fun _ _ => (1000 : ℚ))
      ⟨0, 0, 500, none, none⟩ ⟨3, 3, 500, none, none⟩ = "Walking" :=
  C5_degenerate_time_speed_zero_walking (fun _ _ => (1000 : ℚ))
    ⟨0, 0, 500, none, none⟩ ⟨3, 3, 500, none, none⟩ (by decide)

/-- C4: detectStops equals the consecutive-pair scan (each
qualifying pair independently emits the later fix, with no merging
of consecutive qualifying pairs), emits at most N - 1 events, and
every emitted event is fixes[i] for some i >= 1 whose pair
(fixes[i-1], fixes[i]) qualifies — never index 0, never the earlier
fix, never a synthetic point. -/
theorem C4_detect_stops_shape :
    ∀ (d : Fix → Fix → ℚ) (fixes : List Fix),
      detectStops d fixes = stopsSpec d fixes ∧
      (detectStops d fixes).length ≤ fixes.length - 1 ∧
      (∀ e ∈ detectStops d fixes, ∃ i : Nat, 0 < i ∧ i < fixes.length ∧
        fixes[i]? = some e ∧
        ∃ p, fixes[i - 1]? = some p ∧ isStop d e p = true) := by
  intro d fixes
  have heq := detectStops_eq_stopsSpec d fixes
  refine ⟨heq, ?_, ?_⟩
  · rw [heq]
    unfold stopsSpec
    rw [List.length_map]
    have h2 := List.length_filter_le (fun pc => isStop d pc.2 pc.1)
      (fixes.zip fixes.tail)
    have h3 : (fixes.zip fixes.tail).length
        = min fixes.length fixes.tail.length :=
      List.length_zip fixes fixes.tail
    have h4 := List.length_tail fixes
    omega
  · intro e he
    rw [heq] at he
    unfold stopsSpec at he
    obtain ⟨pc, hpc, hsnd⟩ := List.mem_map.mp he
    obtain ⟨hmem, hstop⟩ := List.mem_filter.mp hpc
    obtain ⟨j, hj⟩ := List.mem_iff_getElem?.mp hmem
    obtain ⟨hj1, hj2⟩ := zip_getElem?_inv fixes fixes.tail j pc hj
    rw [tail_getElem?] at hj2
    have hlt : j + 1 < fixes.length := (List.getElem?_eq_some.mp hj2).1
    refine ⟨j + 1, Nat.succ_pos j, hlt, ?_, pc.1, ?_, ?_⟩
    · rw [← hsnd]; exact hj2
    · have hj0 : j + 1 - 1 = j := by omega
      rw [hj0]; exact hj1
    · rw [← hsnd]; exact hstop

/-- Witness for C4: three fixes five minutes apart at the same
location; both pairs qualify, and the second fix is an emitted
event whose index and qualifying pair the theorem produces. -/
theorem C4_detect_stops_shape_witness :
    detectStops (fun _ _ => (0 : ℚ))
      [⟨0, 0, 0, none, none⟩, ⟨0, 0, 300000, none, none⟩,
       ⟨0, 0, 600000, none, none⟩]
      = stopsSpec (fun _ _ => (0 : ℚ))
        [⟨0, 0, 0, none, none⟩, ⟨0, 0, 300000, none, none⟩,
         ⟨0, 0, 600000, none, none⟩] ∧
    (detectStops (fun _ _ => (0 : ℚ))
      [⟨0, 0, 0, none, none⟩, ⟨0, 0, 300000, none, none⟩,
       ⟨0, 0, 600000, none, none⟩]).length ≤
      ([⟨0, 0, 0, none, none⟩, ⟨0, 0, 300000, none, none⟩,
        (⟨0, 0, 600000, none, none⟩ : Fix)]).length - 1 ∧
    (∃ i : Nat, 0 < i ∧
      i < ([⟨0, 0, 0, none, none⟩, ⟨0, 0, 300000, none, none⟩,
        (⟨0, 0, 600000, none, none⟩ : Fix)]).length ∧
      ([⟨0, 0, 0, none, none⟩, ⟨0, 0, 300000, none, none⟩,
        (⟨0, 0, 600000, none, none⟩ : Fix)])[i]?
          = some ⟨0, 0, 300000, none, none⟩ ∧
      ∃ p, ([⟨0, 0, 0, none, none⟩, ⟨0, 0, 300000, none, none⟩,
        (⟨0, 0, 600000, none, none⟩ : Fix)])[i - 1]? = some p ∧
        isStop (fun _ _ => (0 : ℚ)) ⟨0, 0, 300000, none, none⟩ p = true) := by
  have h := C4_detect_stops_shape (fun _ _ => (0 : ℚ))
    [⟨0, 0, 0, none, none⟩, ⟨0, 0, 300000, none, none⟩,
     ⟨0, 0, 600000, none, none⟩]
  refine ⟨h.1, h.2.1, h.2.2 ⟨0, 0, 300000, none, none⟩ ?_⟩
  rw [detectStops_eq_stopsSpec]
  norm_num [stopsSpec, isStop]

/-- C3: calculateTotalDistance returns "0.00" for fewer than two
points, and otherwise the haversine contributions of all consecutive
pairs (skipping pairs that fail the numeric-presence guard) summed
and formatted with fixed two-decimal rounding. -/
theorem C3_total_distance_pair_sum :
    (∀ (d : ℚ → ℚ → ℚ → ℚ → ℚ) (coords : List (Option CoordPt)),
      coords.length < 2 → calculateTotalDistance d coords = "0.00") ∧
    (∀ (d : ℚ → ℚ → ℚ → ℚ → ℚ) (coords : List (Option CoordPt)),
      2 ≤ coords.length →
        calculateTotalDistance d coords = toFixed2 (pairSum d coords)) := by
  constructor
  · intro d coords h
    unfold calculateTotalDistance
    rw [if_pos h]
  · intro d coords h
    exact calcTotal_eq_pairSum d coords h

/-- Witness for C3: the empty and singleton lists give "0.00", and a
two-point list realizes the pair-sum formula, evaluating to "7.00"
for a distance function returning 7. -/
theorem C3_total_distance_pair_sum_witness :
    calculateTotalDistance (fun _ _ _ _ => (7 : ℚ)) [] = "0.00" ∧
    calculateTotalDistance (fun _ _ _ _ => (7 : ℚ))
      [some ⟨some (JNum.val 0), some (JNum.val 0)⟩] = "0.00" ∧
    calculateTotalDistance (fun _ _ _ _ => (7 : ℚ))
      [some ⟨some (JNum.val 0), some (JNum.val 0)⟩,
       some ⟨some (JNum.val 1), some (JNum.val 1)⟩]
      = toFixed2 (pairSum (fun _ _ _ _ => (7 : ℚ))
          [some ⟨some (JNum.val 0), some (JNum.val 0)⟩,
           some ⟨some (JNum.val 1), some (JNum.val 1)⟩]) := by
  refine ⟨?_, ?_, ?_⟩
  · exact C3_total_distance_pair_sum.1 _ _ (by decide)
  · exact C3_total_distance_pair_sum.1 _ _ (by decide)
  · exact C3_total_distance_pair_sum.2 _ _ (by decide)

/-- C10 (amended): if some consecutive pair is non-null with all
four latitude/longitude slots present and numeric and at least one
of them NaN, the guard does not skip the pair, NaN propagates
through the sum, and calculateTotalDistance returns "NaN". -/
theorem C10_nan_pair_total_nan :
    ∀ (d : ℚ → ℚ → ℚ → ℚ → ℚ) (coords : List (Option CoordPt))
      (i : Nat) (a b : CoordPt),
      coords[i]? = some (some a) → coords[i + 1]? = some (some b) →
      a.latitude.isSome → a.longitude.isSome →
      b.latitude.isSome → b.longitude.isSome →
      (a.latitude = some JNum.nan ∨ a.longitude = some JNum.nan ∨
        b.latitude = some JNum.nan ∨ b.longitude = some JNum.nan) →
      calculateTotalDistance d coords = "NaN" := by
  intro d coords i a b hi hi1 ha1 ha2 hb1 hb2 hnan
  have hlen : i + 1 < coords.length := by
    rcases List.getElem?_eq_some.mp hi1 with ⟨h, _⟩
    exact h
  have h2 : 2 ≤ coords.length := by omega
  rw [calcTotal_eq_pairSum d coords h2]
  have hz : (coords.zip coords.tail)[i]? = some (some a, some b) := by
    apply zip_getElem?_of coords coords.tail i (some a) (some b) hi
    rw [tail_getElem?]
    exact hi1
  have : pairSum d coords = JNum.nan := by
    unfold pairSum
    exact foldl_pairStep_nan_at d (coords.zip coords.tail) i (JNum.val 0)
      (some a) (some b) hz (pairStep_nan_pair d a b ha1 ha2 hb1 hb2 hnan)
  rw [this]
  rfl

/-- Witness for C10 (amended): a fully numeric pair with a NaN
latitude makes the total "NaN". -/
theorem C10_nan_pair_total_nan_witness :
    calculateTotalDistance (fun _ _ _ _ => (0 : ℚ))
      [some ⟨some JNum.nan, some (JNum.val 0)⟩,
       some ⟨some (JNum.val 0), some (JNum.val 0)⟩] = "NaN" :=
  C10_nan_pair_total_nan (fun _ _ _ _ => (0 : ℚ))
    [some ⟨some JNum.nan, some (JNum.val 0)⟩,
     some ⟨some (JNum.val 0), some (JNum.val 0)⟩]
    0 ⟨some JNum.nan, some (JNum.val 0)⟩ ⟨some (JNum.val 0), some (JNum.val 0)⟩
    rfl rfl rfl rfl rfl rfl (Or.inl rfl)

/-- Counterexample to C10 as stated: cexCoords10 has a consecutive
pair whose first point carries a NaN latitude (present and of
numeric type), yet the pair is skipped because the second point
lacks a numeric latitude, so the result is "0.00", not "NaN". -/
theorem C10_counterexample :
    (∃ (i : Nat) (a b : CoordPt),
      cexCoords10[i]? = some (some a) ∧ cexCoords10[i + 1]? = some (some b) ∧
      (a.latitude = some JNum.nan ∨ a.longitude = some JNum.nan ∨
        b.latitude = some JNum.nan ∨ b.longitude = some JNum.nan)) ∧
    2 ≤ cexCoords10.length ∧
    calculateTotalDistance (fun _ _ _ _ => (0 : ℚ)) cexCoords10 = "0.00" ∧
    calculateTotalDistance (fun _ _ _ _ => (0 : ℚ)) cexCoords10 ≠ "NaN" := by
  refine ⟨⟨0, ⟨some JNum.nan, some (JNum.val 0)⟩, ⟨none, some (JNum.val 0)⟩,
    rfl, rfl, Or.inl rfl⟩, by decide, ?_, ?_⟩ <;>
  · norm_num [calculateTotalDistance, cexCoords10, pairStep, toFixed2, ratFloor,
      List.range_succ]
    decide

/-- C6: with fewer than 2 input fixes, snapToRoad returns the input
fixes unchanged (coordinates intact) and performs no network
call. -/
theorem C6_snap_short_input_no_network :
    ∀ (resp : Except Unit MatchData) (coords : List Fix),
      coords.length < 2 →
        snapToRoad resp coords = (coords.map fixToSnapPoint, false) ∧
        ((snapToRoad resp coords).1.map (fun p => (p.latitude, p.longitude))
          = coords.map (fun f => (f.latitude, f.longitude))) ∧
        (snapToRoad resp coords).2 = false := by
  intro resp coords h
  have hmain : snapToRoad resp coords = (coords.map fixToSnapPoint, false) := by
    unfold snapToRoad
    rw [if_pos h]
  refine ⟨hmain, ?_, by rw [hmain]⟩
  rw [hmain]
  simp [List.map_map, fixToSnapPoint, Function.comp]

/-- Witness for C6: a singleton input comes back unchanged, with no
network call. -/
theorem C6_snap_short_input_no_network_witness :
    snapToRoad (Except.error ()) [⟨1, 2, 5, some "T", none⟩]
      = ([⟨1, 2, 5, some "T", none⟩].map fixToSnapPoint, false) ∧
    (snapToRoad (Except.error ()) [⟨1, 2, 5, some "T", none⟩]).2 = false := by
  have h := C6_snap_short_input_no_network (Except.error ())
    [⟨1, 2, 5, some "T", none⟩] (by decide)
  exact ⟨h.1, h.2.2⟩

/-- C1 (amended): on a transport error / non-2xx response, or an
empty or missing matchings list (with at least 2 input fixes),
snapToRoad does not propagate an error: it returns the input fix
list itself — same length and the same latitude/longitude content —
with the fixes' other fields still present (the fallback does not
strip metadata). -/
theorem C1_snap_failure_returns_fixes :
    ∀ (coords : List Fix) (resp : Except Unit MatchData),
      2 ≤ coords.length →
      (resp = Except.error () ∨
        (∃ data, resp = Except.ok data ∧
          (data.matchings = none ∨ data.matchings = some []))) →
      (snapToRoad resp coords).1 = coords.map fixToSnapPoint ∧
      (snapToRoad resp coords).1.length = coords.length ∧
      (∀ i : Nat, ((snapToRoad resp coords).1[i]?).map
          (fun p => (p.latitude, p.longitude))
        = (coords[i]?).map (fun f => (f.latitude, f.longitude))) := by
  intro coords resp h2 hfail
  have hmain : (snapToRoad resp coords).1 = coords.map fixToSnapPoint := by
    unfold snapToRoad
    rw [if_neg (by omega)]
    rcases hfail with hfail | ⟨data, hdata, hm⟩
    · subst hfail; rfl
    · subst hdata
      dsimp only
      rcases hm with hm | hm <;> simp [hm]
  refine ⟨hmain, ?_, ?_⟩
  · rw [hmain, List.length_map]
  · intro i
    rw [hmain, List.getElem?_map, Option.map_map]
    congr 1

/-- Witness for C1 (amended): a transport error on a two-fix input
returns exactly those two fixes. -/
theorem C1_snap_failure_returns_fixes_witness :
    (snapToRoad (Except.error ())
      [⟨1, 2, 0, some "A", none⟩, ⟨3, 4, 60000, none, some "addr"⟩]).1
      = [⟨1, 2, 0, some "A", none⟩,
         (⟨3, 4, 60000, none, some "addr"⟩ : Fix)].map fixToSnapPoint ∧
    (snapToRoad (Except.error ())
      [⟨1, 2, 0, some "A", none⟩, ⟨3, 4, 60000, none, some "addr"⟩]).1.length
      = ([⟨1, 2, 0, some "A", none⟩,
          (⟨3, 4, 60000, none, some "addr"⟩ : Fix)]).length := by
  have h := C1_snap_failure_returns_fixes
    [⟨1, 2, 0, some "A", none⟩, ⟨3, 4, 60000, none, some "addr"⟩]
    (Except.error ()) (by decide) (Or.inl rfl)
  exact ⟨h.1, h.2.1⟩

/-- Counterexample to C1 as stated: on a transport error the
fallback returns the original fix objects, so the returned points
are NOT stripped to latitude/longitude — the timestamp and
tracking-id fields are still present on them. -/
theorem C1_counterexample :
    ¬ (∀ p ∈ (snapToRoad (Except.error ())
          [⟨1, 2, 7, some "A", none⟩, ⟨3, 4, 60000, some "A", none⟩]).1,
        p.timestamp = none ∧ p.tracking_id = none ∧ p.address = none) := by
  decide

/-- C7: with a response carrying at least one matching, snapToRoad
concatenates the segments' coordinate lists in the order returned,
collapses immediately-adjacent duplicate coordinate pairs (exact
equality on both components; non-adjacent duplicates preserved),
and swaps each (lng, lat) pair into a latitude/longitude point; in
particular segments [[0,0],[0,1]] and [[0,1],[0,2]] produce exactly
three points, and a segment [[0,0],[1,1],[0,0]] keeps its
non-adjacent duplicate endpoints. -/
theorem C7_snap_concat_dedup :
    (∀ (coords : List Fix) (data : MatchData) (matchings : List Matching),
      2 ≤ coords.length → data.matchings = some matchings → matchings ≠ [] →
        snapToRoad (Except.ok data) coords
          = ((collapseAdjacent (segsFlatten matchings)).map
              (fun p => (⟨p.2, p.1, none, none, none⟩ : SnapPoint)), true)) ∧
    (∀ (coords : List Fix), 2 ≤ coords.length →
      snapToRoad (Except.ok ⟨some [⟨some ⟨some [(0, 0), (0, 1)]⟩⟩,
          ⟨some ⟨some [(0, 1), (0, 2)]⟩⟩]⟩) coords
        = ([⟨0, 0, none, none, none⟩, ⟨1, 0, none, none, none⟩,
            ⟨2, 0, none, none, none⟩], true)) ∧
    (∀ (coords : List Fix), 2 ≤ coords.length →
      snapToRoad (Except.ok ⟨some [⟨some ⟨some [(0, 0), (1, 1), (0, 0)]⟩⟩]⟩)
          coords
        = ([⟨0, 0, none, none, none⟩, ⟨1, 1, none, none, none⟩,
            ⟨0, 0, none, none, none⟩], true)) := by
  have hgen : ∀ (coords : List Fix) (data : MatchData)
      (matchings : List Matching),
      2 ≤ coords.length → data.matchings = some matchings → matchings ≠ [] →
        snapToRoad (Except.ok data) coords
          = ((collapseAdjacent (segsFlatten matchings)).map
              (fun p => (⟨p.2, p.1, none, none, none⟩ : SnapPoint)), true) := by
    intro coords data matchings h2 hm hne
    unfold snapToRoad
    rw [if_neg (by omega)]
    have h0 : ¬(matchings.length = 0) := by
      intro hh
      exact hne (List.length_eq_zero.mp hh)
    dsimp only
    rw [hm]
    dsimp only
    rw [if_neg h0, dedupJs_eq_collapseAdjacent, concatCoords_eq_segsFlatten]
  refine ⟨hgen, ?_, ?_⟩
  · intro coords h2
    rw [hgen coords ⟨some [⟨some ⟨some [(0, 0), (0, 1)]⟩⟩,
      ⟨some ⟨some [(0, 1), (0, 2)]⟩⟩]⟩
      [⟨some ⟨some [(0, 0), (0, 1)]⟩⟩, ⟨some ⟨some [(0, 1), (0, 2)]⟩⟩]
      h2 rfl (by simp)]
    norm_num [segsFlatten, collapseAdjacent, collapseGo]
  · intro coords h2
    rw [hgen coords ⟨some [⟨some ⟨some [(0, 0), (1, 1), (0, 0)]⟩⟩]⟩
      [⟨some ⟨some [(0, 0), (1, 1), (0, 0)]⟩⟩] h2 rfl (by simp)]
    norm_num [segsFlatten, collapseAdjacent, collapseGo]

/-- Witness for C7: a concrete matched segment with an adjacent
duplicate, applied to a two-fix input. -/
theorem C7_snap_concat_dedup_witness :
    snapToRoad (Except.ok ⟨some [⟨some ⟨some [(5, 6), (5, 6), (7, 8)]⟩⟩]⟩)
      [⟨0, 0, 0, none, none⟩, ⟨1, 1, 60000, none, none⟩]
      = ((collapseAdjacent
          (segsFlatten [⟨some ⟨some [(5, 6), (5, 6), (7, 8)]⟩⟩])).map
          (fun p => (⟨p.2, p.1, none, none, none⟩ : SnapPoint)), true) :=
  C7_snap_concat_dedup.1 [⟨0, 0, 0, none, none⟩, ⟨1, 1, 60000, none, none⟩]
    ⟨some [⟨some ⟨some [(5, 6), (5, 6), (7, 8)]⟩⟩]⟩
    [⟨some ⟨some [(5, 6), (5, 6), (7, 8)]⟩⟩]
    (by decide) rfl (by simp)

/-- For every reference instant, the "yesterday" day-of-month shift
setDate(getDate() - 1) lands on the calendar day whose day count is
one less than the reference day's. -/
theorem setDateJS_pred (now : JSDate) :
    setDateJS now (now.day - 1) = prevCalendarDay now := by
  unfold setDateJS prevCalendarDay
  have harg : daysFromCivil now.year now.month 1 + (now.day - 1 - 1)
      = daysFromCivil now.year now.month now.day - 1 := by
    unfold daysFromCivil
    ring
  rw [harg]

/-- C8: resolving the preset "today" yields the range from local
midnight to local 23:59:59.999 of the current calendar day, and
"yesterday" yields the same boundaries shifted back exactly one
calendar day; in particular on 2024-03-15 the preset "yesterday"
resolves to [2024-03-14T00:00:00.000, 2024-03-14T23:59:59.999]
local time. -/
theorem C8_date_presets :
    (∀ now : JSDate, getDateRange now "today" = specLocalDayRange now) ∧
    (∀ now : JSDate, getDateRange now "yesterday"
        = specLocalDayRange (prevCalendarDay now)) ∧
    getDateRange ⟨2024, 3, 15, 10, 30, 0, 0⟩ "yesterday"
      = (⟨2024, 3, 14, 0, 0, 0, 0⟩, ⟨2024, 3, 14, 23, 59, 59, 999⟩) := by
  have htoday : ∀ now : JSDate,
      getDateRange now "today" = specLocalDayRange now := by
    intro now
    unfold getDateRange
    rw [if_pos rfl]
    rfl
  have hyesterday : ∀ now : JSDate,
      getDateRange now "yesterday" = specLocalDayRange (prevCalendarDay now) := by
    intro now
    unfold getDateRange
    rw [if_neg (by decide), if_pos rfl, setDateJS_pred]
    rfl
  refine ⟨htoday, hyesterday, ?_⟩
  rw [hyesterday ⟨2024, 3, 15, 10, 30, 0, 0⟩]
  decide

/-- C9: every range the resolver produces satisfies start ≤ end,
for the presets and for every other selection value. -/
theorem C9_range_start_le_end :
    ∀ (now : JSDate) (option : String),
      toMs (getDateRange now option).1 ≤ toMs (getDateRange now option).2 := by
  intro now option
  unfold getDateRange
  by_cases h1 : option = "today"
  · rw [if_pos h1]
    unfold toMs setHours
    dsimp only
    omega
  · rw [if_neg h1]
    by_cases h2 : option = "yesterday"
    · rw [if_pos h2]
      unfold toMs setHours
      dsimp only
      omega
    · rw [if_neg h2]

end WebTracker
